import Mathlib

set_option maxRecDepth 100000

/-!
Shallow embedding of the CatFlap signal codec and power-programming engine
(`src/rf.py`, `src/payload.py`) together with theorems settling the spec
claims.  Python byte values are modelled as `Nat` (always reduced below 256
where the source guarantees it), Python `int` as `Int`, fallible code as
`Except`, and hardware register writes as an explicit event list applied to a
register state.
-/

namespace CatFlap

/-! ## Register write events and register state (FREND0 + PA_TABLE0..7) -/

/-- A single hardware register write performed through `poke()`:
either the FREND0 front-end byte or one PATABLE entry (index 0..7). -/
inductive RegWrite where
  | frend0 (v : Nat)
  | patable (index : Nat) (v : Nat)
  deriving DecidableEq, Repr

/-- `True` exactly for PATABLE writes. -/
def RegWrite.isPatableWrite : RegWrite → Bool
  | .frend0 _ => false
  | .patable _ _ => true

/-- The power-relevant register file of the CC111x: the FREND0 byte and the
eight PA_TABLE bytes (index 0 at `PA_TABLE0_ADDR`, index i at base − i). -/
structure RegState where
  frend0 : Nat
  patable : Fin 8 → Nat

/-- Apply one write event to the register state.  PATABLE indices outside
0..7 never occur (the source validates them before writing). -/
def applyWrite (st : RegState) : RegWrite → RegState
  | .frend0 v => { st with frend0 := v }
  | .patable i v =>
      if h : i < 8 then { st with patable := Function.update st.patable ⟨i, h⟩ v }
      else st

/-- Apply a sequence of write events in order. -/
def applyWrites (st : RegState) (ws : List RegWrite) : RegState :=
  ws.foldl applyWrite st

/-! ## Errors raised by `rf.py` -/

/-- Python exceptions raised by the register-programming paths of `rf.py`:
`ValueError` for validation failures, `RuntimeError` for missing or failing
register access. -/
inductive RfErr where
  | valueErr (msg : String)
  | runtimeErr (msg : String)
  deriving DecidableEq, Repr

/-! ## `rf.py` band lookup (POWER_TABLE, _infer_band, _select_band) -/

/-- `POWER_TABLE` from `rf.py` lines 22-27: band → (target dBm → PATABLE
code), modelled as an association list in source order. -/
def POWER_TABLE : List (Nat × List (Int × Nat)) :=
  [ (315, [(-30, 0x12), (-20, 0x0D), (-15, 0x1C), (-10, 0x34), (-5, 0x2B),
           (0, 0x51), (5, 0x85), (7, 0xCB), (10, 0xC2)]),
    (433, [(-30, 0x12), (-20, 0x0E), (-15, 0x1D), (-10, 0x34), (-5, 0x2C),
           (0, 0x60), (5, 0x84), (7, 0xC8), (10, 0xC0)]),
    (868, [(-30, 0x03), (-20, 0x0E), (-15, 0x1E), (-10, 0x27), (-5, 0x8F),
           (0, 0x50), (5, 0x84), (7, 0xCB), (10, 0xC2)]),
    (915, [(-30, 0x03), (-20, 0x0D), (-15, 0x1D), (-10, 0x26), (-5, 0x57),
           (0, 0x8E), (5, 0x83), (7, 0xC7), (10, 0xC0)]) ]

/-- `_lookup_power_code` (`rf.py` 120-124): `POWER_TABLE.get(band)` then
`band_map.get(int(target_dbm))`, `None` on either miss. -/
def lookup_power_code (band : Nat) (target_dbm : Int) : Option Nat :=
  match POWER_TABLE.find? (fun p => p.1 == band) with
  | none => none
  | some p => (p.2.find? (fun q => q.1 == target_dbm)).map (fun q => q.2)

/-- `_infer_band` (`rf.py` 92-101): bucket the TX frequency. -/
def infer_band (freq_hz : Int) : Nat :=
  if freq_hz < 380000000 then 315
  else if freq_hz < 600000000 then 433
  else if freq_hz < 900000000 then 868
  else 915

/-- The characters CPython's `str.strip()` (and `int()`) treat as
whitespace: the Unicode whitespace property — 0x09..0x0D, 0x1C..0x1F,
space, NEL, NBSP, OGHAM, the 0x2000..0x200A range, LS, PS, NNBSP, MMSP
and IDEOGRAPHIC SPACE. -/
def pyIsSpace (c : Char) : Bool :=
  let n := c.toNat
  decide ((9 ≤ n ∧ n ≤ 13) ∨ (28 ≤ n ∧ n ≤ 31) ∨ n = 32 ∨ n = 0x85 ∨ n = 0xA0 ∨
    n = 0x1680 ∨ (0x2000 ≤ n ∧ n ≤ 0x200A) ∨ n = 0x2028 ∨ n = 0x2029 ∨
    n = 0x202F ∨ n = 0x205F ∨ n = 0x3000)

/-- Python `str.strip()` on the character-list view (kernel-reducible,
unlike `String.trim`). -/
def pyStrip (s : String) : String :=
  ⟨((s.data.dropWhile pyIsSpace).reverse.dropWhile pyIsSpace).reverse⟩

/-- Python `str.lower()` for the ASCII strings used here. -/
def pyLower (s : String) : String := ⟨s.data.map Char.toLower⟩

/-- Python `str.upper()` for the ASCII strings used here. -/
def pyUpper (s : String) : String := ⟨s.data.map Char.toUpper⟩

/-- Python `str.startswith`. -/
def pyStartsWith (s pre : String) : Bool := pre.data.isPrefixOf s.data

/-- A hex digit value, lower-case letters only (the callers lower-case
first), as accepted by Python `int(s, 16)` digits. -/
def hexCharVal (c : Char) : Option Nat :=
  if '0' ≤ c ∧ c ≤ '9' then some (c.toNat - '0'.toNat)
  else if 'a' ≤ c ∧ c ≤ 'f' then some (c.toNat - 'a'.toNat + 10)
  else none

/-- A decimal digit value. -/
def decCharVal (c : Char) : Option Nat :=
  if '0' ≤ c ∧ c ≤ '9' then some (c.toNat - '0'.toNat) else none

/-- A hex digit value, either case, as `int()` accepts after `0x`. -/
def hexCharValAny (c : Char) : Option Nat :=
  if '0' ≤ c ∧ c ≤ '9' then some (c.toNat - '0'.toNat)
  else if 'a' ≤ c ∧ c ≤ 'f' then some (c.toNat - 'a'.toNat + 10)
  else if 'A' ≤ c ∧ c ≤ 'F' then some (c.toNat - 'A'.toNat + 10)
  else none

/-- An octal digit value. -/
def octCharVal (c : Char) : Option Nat :=
  if '0' ≤ c ∧ c ≤ '7' then some (c.toNat - '0'.toNat) else none

/-- A binary digit value. -/
def binCharVal (c : Char) : Option Nat :=
  if c = '0' then some 0 else if c = '1' then some 1 else none

/-- Continue a digit literal after its first digit with CPython's
underscore rule: a single `_` may stand between two digits, never
doubled or trailing. -/
def digitsUndGo (digitVal : Char → Option Nat) (base : Nat) (acc : Nat) :
    List Char → Option Nat
  | [] => some acc
  | '_' :: c :: rest =>
      match digitVal c with
      | some d => digitsUndGo digitVal base (acc * base + d) rest
      | none => none
  | ['_'] => none
  | c :: rest =>
      match digitVal c with
      | some d => digitsUndGo digitVal base (acc * base + d) rest
      | none => none

/-- A digit literal in the given base with underscore separators: at least
one digit, starting with a digit. -/
def digitsUnd (digitVal : Char → Option Nat) (base : Nat) (cs : List Char) : Option Nat :=
  match cs with
  | [] => none
  | c :: rest =>
      match digitVal c with
      | some d => digitsUndGo digitVal base d rest
      | none => none

/-- A digit literal right after a base prefix: CPython additionally allows
one underscore between the prefix and the first digit (`0x_1f`). -/
def digitsUndPrefixed (digitVal : Char → Option Nat) (base : Nat) (cs : List Char) :
    Option Nat :=
  match cs with
  | '_' :: rest => digitsUnd digitVal base rest
  | _ => digitsUnd digitVal base cs

/-- Python `int(s, 0)`: optional surrounding whitespace and sign, then a
`0x`/`0o`/`0b` prefixed literal (either case, underscore separators) or a
decimal literal, where a decimal literal with a leading zero is legal only
when the whole literal denotes zero (`"00"`, `"0_0"`; `"007"` raises).
Digits are ASCII, as in these config strings (CPython additionally maps
non-ASCII Unicode decimal digits, the same restriction as `pyLower`). -/
def pyIntOfString (s : String) : Option Int :=
  let cs := (pyStrip s).data
  let (neg, cs) :=
    match cs with
    | '-' :: rest => (true, rest)
    | '+' :: rest => (false, rest)
    | _ => (false, cs)
  let mag : Option Nat :=
    match cs with
    | '0' :: 'x' :: rest => digitsUndPrefixed hexCharValAny 16 rest
    | '0' :: 'X' :: rest => digitsUndPrefixed hexCharValAny 16 rest
    | '0' :: 'o' :: rest => digitsUndPrefixed octCharVal 8 rest
    | '0' :: 'O' :: rest => digitsUndPrefixed octCharVal 8 rest
    | '0' :: 'b' :: rest => digitsUndPrefixed binCharVal 2 rest
    | '0' :: 'B' :: rest => digitsUndPrefixed binCharVal 2 rest
    | '0' :: _ =>
        match digitsUnd decCharVal 10 cs with
        | some 0 => some 0
        | _ => none
    | _ => digitsUnd decCharVal 10 cs
  mag.map (fun m => if neg then -(m : Int) else (m : Int))

/-- The `Any` values the power helpers receive for int-like fields: Python
`None`, `int`, `bool` or `str` (`_parse_int`'s documented domain). -/
inductive PyVal where
  | none
  | int (n : Int)
  | bool (b : Bool)
  | str (s : String)
  deriving DecidableEq, Repr

/-- `_parse_int` (`rf.py` 32-48): `None`→`None`, bool→0/1, int→itself,
str→`int(s, 0)` with `None` on empty or unparseable; other types→`None`. -/
def parse_int : PyVal → Option Int
  | .none => none
  | .bool b => some (if b then 1 else 0)
  | .int n => some n
  | .str s =>
      let t := pyStrip s
      if t = "" then none else pyIntOfString t

/-- `_select_band` (`rf.py` 104-117): an explicit override that names one of
the four bands wins, `"auto"`/empty/invalid overrides fall back to
`_infer_band`. -/
def select_band (freq_hz : Int) (override : PyVal) : Nat :=
  match override with
  | .none => infer_band freq_hz
  | .str s =>
      let t := pyLower (pyStrip s)
      if t = "" ∨ t = "auto" then infer_band freq_hz
      else
        match parse_int (.str t) with
        | some ov =>
            if ov = 315 ∨ ov = 433 ∨ ov = 868 ∨ ov = 915 then ov.toNat
            else infer_band freq_hz
        | none => infer_band freq_hz
  | .int n =>
      if n = 315 ∨ n = 433 ∨ n = 868 ∨ n = 915 then n.toNat
      else infer_band freq_hz
  | .bool _ => infer_band freq_hz

/-! ## `rf.py` register programming (_set_frend0, _write_patable_index,
_apply_manual_regs, _apply_smart_power, _apply_power_settings) -/

/-- `_write_patable_index` (`rf.py` 227-233): validate the index, then emit
the write of `value & 0xFF` at `PA_TABLE0_ADDR - index` (the model assumes
`poke()` succeeds; its runtime failure is outside every claim). -/
def write_patable_index (index : Nat) (value : Nat) : Except RfErr RegWrite :=
  if index > 7 then Except.error (.valueErr "PATABLE index must be 0..7")
  else Except.ok (.patable index (value &&& 0xFF))

/-- `_set_frend0` (`rf.py` 235-254): read back the current FREND0 byte
(`cur = none` models a firmware without `peek()`, a `RuntimeError`), replace
bits [5:4] with `lodiv` when present (validated 0..3) and bits [2:0] with
`pa_power` (validated 0..7), and write the byte only when it changed.
Because the read-back is one byte, Python's `x & ~mask` equals
`x &&& (0xFF ^^^ mask)` here. -/
def set_frend0 (cur : Option Nat) (pa_power : Int) (lodiv_buf_current_tx : Option Int) :
    Except RfErr (List RegWrite) := do
  match cur with
  | none => Except.error (.runtimeErr "FREND0 update requires firmware with peek()/poke() support")
  | some cur_val => do
    let v1 ←
      match lodiv_buf_current_tx with
      | some l =>
          if 0 ≤ l ∧ l ≤ 3 then
            pure ((cur_val &&& (0xFF ^^^ (0b11 <<< 4))) ||| ((l.toNat &&& 0b11) <<< 4))
          else Except.error (.valueErr "frend0_lodiv_buf_current_tx must be 0..3")
      | none => pure cur_val
    if 0 ≤ pa_power ∧ pa_power ≤ 7 then
      let new_val := (v1 &&& (0xFF ^^^ 0b111)) ||| (pa_power.toNat &&& 0b111)
      if new_val ≠ cur_val then pure [RegWrite.frend0 new_val] else pure []
    else Except.error (.valueErr "frend0_pa_power must be 0..7")

/-- The ASK/OOK modulation-family test used by `_apply_manual_regs` and
`_apply_smart_power` (`rf.py` 278, 333). -/
def is_ask (modulation : String) : Bool :=
  let m := pyUpper modulation
  m == "ASK_OOK" || m == "ASK" || m == "OOK" || pyStartsWith m "ASK"

/-- Python `range(start, stop)` as a list. -/
def pyrange (start stop : Nat) : List Nat :=
  List.range' start (stop - start)

/-- `_apply_manual_regs` (`rf.py` 256-303).  The inputs are the results of
`_parse_int` on `frend0_pa_power` / `frend0_lodiv_buf_current_tx` and of
`_parse_patable` on `patable` (those parsers only shape raw JSON values;
`_parse_patable` output bytes are already masked to 0..255).  Returns the
ordered register writes plus whether the missing-patable warning was
logged. -/
def apply_manual_regs (modulation : String) (cur : Option Nat)
    (pa_power? : Option Int) (lodiv? : Option Int) (pt? : Option (List Nat)) :
    Except RfErr (List RegWrite × Bool) := do
  -- sensible default for ASK/OOK: index 0 is off, index 1 is on
  let pa_power : Int := pa_power?.getD 1
  let fw ← set_frend0 cur pa_power lodiv?
  match pt? with
  | none => pure (fw, true)  -- warning: patable not provided, PATABLE left unchanged
  | some pt =>
    match pt with
    | [on_val0] => do
        let on_val := on_val0 &&& 0xFF
        let start := if is_ask modulation then 1 else 0
        let head ←
          if is_ask modulation then do
            let w ← write_patable_index 0 0x00
            pure [w]
          else pure []
        let loop ← (pyrange start (pa_power.toNat + 1)).mapM
          (fun idx => write_patable_index idx on_val)
        pure (fw ++ head ++ loop, false)
    | _ =>
      if pt.length > 8 then
        Except.error (.valueErr "patable list may have at most 8 entries (PA_TABLE0..PA_TABLE7)")
      else do
        let ws ← (List.zip (pyrange 0 pt.length) pt).mapM
          (fun p => write_patable_index p.1 (p.2 &&& 0xFF))
        pure (fw ++ ws, false)

/-- Capability surface of the `rflib` device object probed with `hasattr`
by `rf.py`. -/
structure DeviceCaps where
  peek : Bool
  poke : Bool
  hasSetMaxPower : Bool
  hasSetPower : Bool
  hasSetTxPower : Bool
  hasSetMdmManchester : Bool
  hasMANCHESTER : Bool
  deriving DecidableEq, Repr

/-- The externally visible action `_apply_smart_power` ends in. -/
inductive SmartAction where
  | regs (ws : List RegWrite)   -- deterministic register path applied
  | setPower (code : Nat)       -- fallback d.setPower(code)
  | setTxPower (code : Nat)     -- fallback d.setTxPower(code)
  | maxPower                    -- fallback d.setMaxPower()
  | noop                        -- no usable capability
  deriving DecidableEq, Repr

/-- The register writes attempted inside the `try` of the smart-power
deterministic path (`rf.py` 336-347). -/
def smart_regs_writes (cur : Option Nat) (modulation : String) (code : Nat)
    (lodiv? : Option Int) : Except RfErr (List RegWrite) := do
  if is_ask modulation then
    let fw ← set_frend0 cur 1 lodiv?   -- index 0 = off, index 1 = on
    let w0 ← write_patable_index 0 0x00
    let w1 ← write_patable_index 1 (code &&& 0xFF)
    pure (fw ++ [w0, w1])
  else
    let fw ← set_frend0 cur 0 lodiv?   -- FSK/etc: use index 0 directly
    let w0 ← write_patable_index 0 (code &&& 0xFF)
    pure (fw ++ [w0])

/-- `_apply_smart_power` (`rf.py` 305-362).  `t_dbm?` and `lodiv?` are the
`_parse_int` results of the raw inputs.  Returns the action taken and
whether a warning was logged (table miss, regs-path exception, or no
power capability at all).  The function never raises: the register path is
wrapped in `try/except` and every fallback is capability-guarded. -/
def apply_smart_power (caps : DeviceCaps) (cur : Option Nat) (freq_hz : Int)
    (modulation : String) (t_dbm? : Option Int) (band_override : PyVal)
    (lodiv? : Option Int) : SmartAction × Bool :=
  let t_dbm := t_dbm?.getD 0
  let band := select_band freq_hz band_override
  match lookup_power_code band t_dbm with
  | none =>
      ((if caps.hasSetMaxPower then .maxPower else .noop), true)
  | some code =>
      let can_regs := caps.peek && caps.poke
      let tried : Option (List RegWrite) :=
        if can_regs then (smart_regs_writes cur modulation code lodiv?).toOption
        else none
      match tried with
      | some ws => (.regs ws, false)
      | none =>
          -- warning is logged only when the regs path was tried and raised
          let regsFailed := can_regs
          if caps.hasSetPower then (.setPower code, regsFailed)
          else if caps.hasSetTxPower then (.setTxPower code, regsFailed)
          else ((if caps.hasSetMaxPower then .maxPower else .noop), true)

/-- The externally visible outcome of `_apply_power_settings`. -/
inductive PowerOutcome where
  | maxPower (called : Bool)            -- "max": setMaxPower if available
  | keep                                -- "default"/"auto"/...: do nothing
  | smart (act : SmartAction) (warn : Bool)
  | manual (ws : List RegWrite) (warn : Bool)
  deriving DecidableEq, Repr

/-- `_apply_power_settings` (`rf.py` 364-404): normalize the mode string
(`tx_power_mode or "smart"`, stripped, lower-cased) and dispatch; an
unrecognized mode raises `ValueError`.  `mode?` is `none` for Python
`None`; the empty string is likewise falsy for `or`. -/
def apply_power_settings (caps : DeviceCaps) (cur : Option Nat) (freq_hz : Int)
    (modulation : String) (mode? : Option String) (t_dbm? : Option Int)
    (band_override : PyVal) (pa_power? : Option Int) (lodiv? : Option Int)
    (pt? : Option (List Nat)) : Except RfErr PowerOutcome :=
  let raw := match mode? with
    | none => "smart"
    | some s => if s = "" then "smart" else s
  let mode := pyLower (pyStrip raw)
  if mode = "max" ∨ mode = "maximum" ∨ mode = "full" then
    Except.ok (.maxPower caps.hasSetMaxPower)
  else if mode = "default" ∨ mode = "auto" ∨ mode = "keep" ∨ mode = "none" then
    Except.ok .keep
  else if mode = "smart" ∨ mode = "preset" ∨ mode = "table" then
    let r := apply_smart_power caps cur freq_hz modulation t_dbm? band_override lodiv?
    Except.ok (.smart r.1 r.2)
  else if mode = "manual" ∨ mode = "register" ∨ mode = "frend0" then
    (apply_manual_regs modulation cur pa_power? lodiv? pt?).map
      (fun r => .manual r.1 r.2)
  else
    Except.error (.valueErr "Unknown tx_power_mode")

/-! ## `payload.py` codec (bit packing, waveform decoding, descriptors) -/

/-- Round-half-to-even of the exact rational `num / den` for `den > 0`,
the value CPython's `round()` computes on these inputs (`chips =
int(round(dur_us * drate / 1_000_000.0))`; the quantities reached here are
far below the 2^53 threshold where the float division could tie-break
differently). -/
def round_half_even (num den : Int) : Int :=
  let q := num / den
  let r := num % den
  if 2 * r < den then q
  else if 2 * r > den then q + 1
  else if q % 2 = 0 then q else q + 1

/-- `_durations_to_bits` (`payload.py` 63-79): each signed duration becomes
a run of chips at `level = 1` for positive durations (optionally inverted),
with the magnitude clamped to `max_gap_us` and the run length rounded but
never below one chip. -/
def durations_to_bits (durs : List Int) (drate : Int) (invert_level : Bool)
    (max_gap_us : Int) : List Nat :=
  match durs with
  | [] => []
  | v :: rest =>
      let level : Nat := if v > 0 then 1 else 0
      let level := if invert_level then level ^^^ 1 else level
      let dur_us : Int := if v.natAbs > max_gap_us then max_gap_us else (v.natAbs : Int)
      let chips := round_half_even (dur_us * drate) 1000000
      let chips := if chips < 1 then 1 else chips
      List.replicate chips.toNat level ++ durations_to_bits rest drate invert_level max_gap_us

/-- Compose the 8-chip groups of an already chunk-aligned (or trailing
short) chip list into byte values: each group is reversed when `msb_first`
is false, then folded as `val = (val << 1) | bit`. -/
def packChunks (msb_first : Bool) : List Nat → List Nat
  | [] => []
  | bit :: rest =>
      let grp := bit :: rest.take 7
      let grp := if msb_first then grp else grp.reverse
      grp.foldl (fun val b => (val <<< 1) ||| b) 0 :: packChunks msb_first (rest.drop 7)
  termination_by bits => bits.length
  decreasing_by simp; omega

/-- `_pack_bits` (`payload.py` 82-96): append `0` chips up to a multiple of
eight, then pack each 8-chip group into one byte. -/
def pack_bits (bits : List Nat) (msb_first : Bool) : List Nat :=
  let rem := bits.length % 8
  let bits := if rem ≠ 0 then bits ++ List.replicate (8 - rem) 0 else bits
  packChunks msb_first bits

/-- Python sequence indexing `xs[i]`: non-negative indices from the front,
negative indices from the end, `none` for the `IndexError` cases. -/
def pythonGet (xs : List α) (i : Int) : Option α :=
  if 0 ≤ i then xs.get? i.toNat
  else if i.natAbs ≤ xs.length then xs.get? (xs.length - i.natAbs)
  else none

/-- The trace selection of `parse_flipper_sub` (`payload.py` 108-112):
reset `raw_index` to 0 when it is at least the number of RAW_Data lines,
then index the list with Python semantics. -/
def select_raw_trace (raw_lines : List (List Int)) (raw_index : Int) : Option (List Int) :=
  let idx := if raw_index ≥ (raw_lines.length : Int) then 0 else raw_index
  pythonGet raw_lines idx

/-- `_hex_to_bytes` helper: fold adjacent digit pairs into bytes
(`bytes.fromhex` on the cleaned even-length digit string). -/
def pairsToBytes : List Nat → List Nat
  | hi :: lo :: rest => (16 * hi + lo) :: pairsToBytes rest
  | _ => []

/-- `_hex_to_bytes` (`payload.py` 125-132): strip, lower-case, drop an
optional `0x` prefix, delete every non-hex character, left-pad with one `0`
digit when the length is odd, and convert digit pairs to bytes. -/
def hex_to_bytes (s : String) : List Nat :=
  let t := pyLower (pyStrip s)
  let t := if pyStartsWith t "0x" then (⟨t.data.drop 2⟩ : String) else t
  let ds := t.data.filterMap hexCharVal
  let ds := if ds.length % 2 = 1 then 0 :: ds else ds
  pairsToBytes ds

/-- Value of one base64 alphabet symbol. -/
def b64CharVal (c : Char) : Option Nat :=
  if 'A' ≤ c ∧ c ≤ 'Z' then some (c.toNat - 'A'.toNat)
  else if 'a' ≤ c ∧ c ≤ 'z' then some (c.toNat - 'a'.toNat + 26)
  else if '0' ≤ c ∧ c ≤ '9' then some (c.toNat - '0'.toNat + 52)
  else if c = '+' then some 62
  else if c = '/' then some 63
  else none

/-- CPython 3.11 `binascii.a2b_base64` (non-strict), one character at a
time over (quad position, pending bits, pad count, emitted bytes):
non-alphabet characters are skipped; `=` at quad position ≥ 2 counts as
padding and ends decoding once the quad is completed, at position < 2 it
is skipped; a data symbol resets the pad count and emits its byte; input
exhausted mid-quad is the `binascii.Error` (`none`). -/
def a2b_base64_go (quad_pos leftchar pads : Nat) (acc : List Nat) :
    List Char → Option (List Nat)
  | [] => if quad_pos ≠ 0 then none else some acc.reverse
  | c :: rest =>
      if c = '=' then
        if 2 ≤ quad_pos ∧ 4 ≤ quad_pos + (pads + 1) then some acc.reverse
        else if 2 ≤ quad_pos then a2b_base64_go quad_pos leftchar (pads + 1) acc rest
        else a2b_base64_go quad_pos leftchar pads acc rest
      else
        match b64CharVal c with
        | none => a2b_base64_go quad_pos leftchar pads acc rest
        | some v =>
            match quad_pos with
            | 0 => a2b_base64_go 1 v 0 acc rest
            | 1 => a2b_base64_go 2 (v &&& 0xF) 0 (((leftchar <<< 2) ||| (v >>> 4)) :: acc) rest
            | 2 => a2b_base64_go 3 (v &&& 0x3) 0 (((leftchar <<< 4) ||| (v >>> 2)) :: acc) rest
            | _ => a2b_base64_go 0 0 0 (((leftchar <<< 6) ||| v) :: acc) rest

/-- `base64.b64decode(s.encode("ascii"))` as used by `parse_rfcat_json`
(CPython 3.11, validation off): `none` models both the
`UnicodeEncodeError` on non-ASCII text and the `binascii.Error` of
`a2b_base64` — e.g. `"AB=C"` and `"=ABC"` are rejected, `"AB=="` decodes
to one byte. -/
def b64decode (s : String) : Option (List Nat) :=
  if s.data.all (fun c => c.toNat < 128) then a2b_base64_go 0 0 0 [] s.data
  else none

/-- Errors raised by `parse_rfcat_json` (`ValueError` / `binascii.Error`
kinds, distinguished by site). -/
inductive ParseErr where
  | missingFrequency    -- "Missing frequency (expected frequency/freq/freq_hz)"
  | missingPayload      -- "Missing payload. Provide one of: ..."
  | b64Error            -- binascii.Error escaping base64.b64decode
  deriving DecidableEq, Repr

/-- A `.rfcat.json` descriptor restricted to the keys `parse_rfcat_json`
reads, each typed as the parser expects it, `none` for an absent key.
`tx_power_mode` is carried to record that the parser never consults it.
The Python `repeat` key is `repeat_cnt` here (`repeat` is reserved). -/
structure Descriptor where
  frequency : Option Int
  freq : Option Int
  freq_hz : Option Int
  modulation : Option String
  manchester : Option Bool
  drate : Option Int
  deviation : Option Int
  syncmode : Option Int
  preamble : Option Int
  repeat_cnt : Option Int
  max_power : Option Bool
  payload : Option (List Int)
  payload_hex : Option String
  payload_b64 : Option String
  raw_durations : Option (List Int)
  raw_durations_us : Option (List Int)
  invert_level : Option Bool
  msb_first : Option Bool
  max_gap_us : Option Int
  tx_power_mode : Option String
  deriving DecidableEq, Repr

/-- The descriptor with every key absent. -/
def Descriptor.empty : Descriptor :=
  ⟨none, none, none, none, none, none, none, none, none, none,
   none, none, none, none, none, none, none, none, none, none⟩

/-- The canonical transmit request `parse_rfcat_json` returns
(`payload.py` 197-208). -/
structure TxReq where
  freq : Int
  payload : List Nat
  repeat_cnt : Int
  drate : Int
  modulation : String
  manchester : Bool
  deviation : Option Int
  syncmode : Int
  preamble : Int
  max_power : Bool
  deriving DecidableEq, Repr

/-- Python `int(x) & 0xFF` for an arbitrary `int`. -/
def pyByte (x : Int) : Nat := (x % 256).toNat

/-- `parse_rfcat_json` (`payload.py` 143-208): resolve the frequency from
its three key aliases, fill the modem defaults, then resolve the payload by
trying the byte list, the hex string, the base64 text and finally the pulse
durations (which force `ASK_OOK`); fail when no source is present.  The
descriptor's `tx_power_mode` key is never consulted. -/
def parse_rfcat_json (d : Descriptor) : Except ParseErr TxReq := do
  let freq ←
    match d.frequency <|> d.freq <|> d.freq_hz with
    | some f => pure f
    | none => Except.error ParseErr.missingFrequency
  let modulation := pyUpper (d.modulation.getD "ASK_OOK")
  let manchester := d.manchester.getD false
  let drate := d.drate.getD 3333
  let deviation := d.deviation
  let syncmode := d.syncmode.getD 0
  let preamble := d.preamble.getD 0
  let repeat_cnt := d.repeat_cnt.getD 20
  let max_power := d.max_power.getD true
  let (payload?, modulation) ←
    match d.payload with
    | some xs => pure (some (xs.map pyByte), modulation)
    | none =>
      match d.payload_hex with
      | some s => pure (some (hex_to_bytes s), modulation)
      | none =>
        match d.payload_b64 with
        | some s =>
            match b64decode s with
            | some bs => pure (some bs, modulation)
            | none => Except.error ParseErr.b64Error
        | none =>
          let raw := d.raw_durations.or d.raw_durations_us
          match raw with
          | some r =>
              if r ≠ [] then
                let invert_level := d.invert_level.getD false
                let msb_first := d.msb_first.getD true
                let max_gap_us := d.max_gap_us.getD 30000
                let bits := durations_to_bits r drate invert_level max_gap_us
                -- Force OOK for this path.
                pure (some (pack_bits bits msb_first), "ASK_OOK")
              else pure (none, modulation)
          | none => pure (none, modulation)
  match payload? with
  | none => Except.error ParseErr.missingPayload
  | some payload =>
      pure { freq := freq, payload := payload, repeat_cnt := repeat_cnt,
             drate := drate, modulation := modulation, manchester := manchester,
             deviation := deviation, syncmode := syncmode, preamble := preamble,
             max_power := max_power }

/-! ## `Radio.transmit` (`rf.py` 410-485) -/

/-- `rflib.MOD_ASK_OOK`. -/
def MOD_ASK_OOK : Nat := 0x30

/-- `rflib.MOD_2FSK`. -/
def MOD_2FSK : Nat := 0x00

/-- `rflib.MANCHESTER`. -/
def MANCHESTER : Nat := 0x08

/-- One call on the `rflib` device object made by `Radio.transmit`; the
whole `_apply_power_settings` register/capability activity is the single
`applyPower` device interaction here (its pure decision part is checked
separately). -/
inductive DevCall where
  | setFreq (hz : Int)
  | setMdmModulation (mdm : Nat)
  | setMdmDRate (baud : Int)
  | setMdmSyncMode (n : Int)
  | setMdmNumPreamble (n : Int)
  | setMdmManchester (n : Nat)
  | setMdmDeviatn (hz : Int)
  | applyPower
  | makePktFLEN (n : Nat)
  | rfxmit (payload : List Nat) (repeat_cnt : Int)
  | setModeIDLE
  deriving DecidableEq, Repr

/-- The error a `transmit` invocation can end in: a device call that
raised, the `ValueError` for an unknown modulation, or an error escaping
`_apply_power_settings`. -/
inductive TxErr where
  | device (c : DevCall)
  | unknownModulation
  | power (e : RfErr)
  deriving DecidableEq, Repr

/-- One step of the `transmit` body: a device call (which the device oracle
may fail) or a pure check that raises when false. -/
inductive TxStep where
  | call (c : DevCall)
  | check (ok : Bool) (e : TxErr)
  deriving DecidableEq, Repr

/-- The arguments of `Radio.transmit` that matter to its control flow. -/
structure TxArgs where
  freq : Int
  payload : List Nat
  repeat_cnt : Int
  drate : Int
  modulation : String
  manchester : Bool
  deviation : Option Int
  syncmode : Int
  preamble : Int
  max_power : Bool
  tx_power_mode : Option String
  tx_power_target_dbm : Option Int
  tx_power_band : PyVal
  frend0_pa_power : Option Int
  frend0_lodiv_buf_current_tx : Option Int
  patable : Option (List Nat)

/-- The modem value for an upper-cased modulation string, `none` for the
`ValueError` branch (`rf.py` 437-443). -/
def mdmOf (mod_upper : String) : Option Nat :=
  if mod_upper = "ASK_OOK" ∨ mod_upper = "OOK" ∨ mod_upper = "ASK" then some MOD_ASK_OOK
  else if mod_upper = "2FSK" ∨ mod_upper = "FSK" then some MOD_2FSK
  else none

/-- The `try` body of `Radio.transmit` as an ordered step list
(`rf.py` 434-475): configure the modem, validate the modulation, apply the
power settings (the pure decision first, the device activity as one call),
set the packet length and transmit. -/
def transmitBodySteps (caps : DeviceCaps) (cur : Option Nat) (a : TxArgs) : List TxStep :=
  let m := pyUpper a.modulation
  let mdm0 := (mdmOf m).getD 0
  let mdm := if a.manchester && caps.hasMANCHESTER then mdm0 ||| MANCHESTER else mdm0
  let mode? : Option String := if a.max_power then some "max" else a.tx_power_mode
  let powerResult := apply_power_settings caps cur a.freq m mode? a.tx_power_target_dbm
    a.tx_power_band a.frend0_pa_power a.frend0_lodiv_buf_current_tx a.patable
  [TxStep.call (.setFreq a.freq),
   TxStep.check (mdmOf m).isSome .unknownModulation,
   TxStep.call (.setMdmModulation mdm),
   TxStep.call (.setMdmDRate a.drate),
   TxStep.call (.setMdmSyncMode a.syncmode),
   TxStep.call (.setMdmNumPreamble a.preamble)]
  ++ (if caps.hasSetMdmManchester then
        [TxStep.call (.setMdmManchester (if a.manchester then 1 else 0))] else [])
  ++ (match a.deviation with
      | some dv => if m = "2FSK" ∨ m = "FSK" then [TxStep.call (.setMdmDeviatn dv)] else []
      | none => [])
  ++ [TxStep.check powerResult.isOk
        (match powerResult with | .error e => .power e | .ok _ => .unknownModulation),
      TxStep.call .applyPower,
      TxStep.call (.makePktFLEN a.payload.length),
      TxStep.call (.rfxmit a.payload a.repeat_cnt)]

/-- Run body steps against a device oracle `fails`: a failing call raises
after being invoked, a false check raises without a device call; returns
the device-call trace and the error, if any. -/
def runSteps (fails : DevCall → Bool) : List TxStep → List DevCall × Option TxErr
  | [] => ([], none)
  | .check ok e :: rest => if ok then runSteps fails rest else ([], some e)
  | .call c :: rest =>
      if fails c then ([c], some (.device c))
      else
        let r := runSteps fails rest
        (c :: r.1, r.2)

/-- `Radio.transmit` (`rf.py` 410-485): run the body, then — in the
`finally` block — invoke `setModeIDLE` on every exit path; an exception of
the idle call itself is swallowed by the inner `try/except: pass`, so the
returned outcome is the body's alone. -/
def transmit (caps : DeviceCaps) (cur : Option Nat) (a : TxArgs)
    (fails : DevCall → Bool) : List DevCall × Option TxErr :=
  let body := runSteps fails (transmitBodySteps caps cur a)
  let idleErr : Option TxErr :=
    if fails .setModeIDLE then some (.device .setModeIDLE) else none
  -- `except Exception: pass` — the idle attempt's own error is dropped:
  let _ := idleErr
  (body.1 ++ [.setModeIDLE], body.2)

/-! ## Shared lemmas -/

/-- Validity of a parsed `frend0_lodiv_buf_current_tx` value: absent, or in
the hardware range 0..3 (`_set_frend0` raises otherwise). -/
def lodivOk : Option Int → Bool
  | none => true
  | some l => decide (0 ≤ l ∧ l ≤ 3)

/-- Validity of a parsed `frend0_pa_power` value: absent, or in the
hardware range 0..7 (`_set_frend0` raises otherwise). -/
def paOk : Option Int → Bool
  | none => true
  | some p => decide (0 ≤ p ∧ p ≤ 7)

/-- The FREND0 byte value `_set_frend0` computes before deciding whether to
write: bits [5:4] from `lodiv` when present, bits [2:0] from `pa_power`,
every other bit taken from the read-back. -/
def frend0_new_val (cur_val : Nat) (pa_power : Int) (lodiv : Option Int) : Nat :=
  let v1 :=
    match lodiv with
    | some l => (cur_val &&& (0xFF ^^^ (0b11 <<< 4))) ||| ((l.toNat &&& 0b11) <<< 4)
    | none => cur_val
  (v1 &&& (0xFF ^^^ 0b111)) ||| (pa_power.toNat &&& 0b111)

lemma and248_or_and7 : ∀ x < 256, ∀ p < 8, ((x &&& 248) ||| p) &&& 7 = p := by decide

lemma and248_or_lt : ∀ x < 256, ∀ p < 8, ((x &&& 248) ||| p) < 256 := by decide

lemma and207_or_shift_lt : ∀ x < 256, ∀ l < 4, ((x &&& 207) ||| ((l &&& 3) <<< 4)) < 256 := by
  decide

lemma frend0_new_val_lt (cur_val : Nat) (pa_power : Int) (lodiv : Option Int)
    (hc : cur_val < 256) (_hp : 0 ≤ pa_power ∧ pa_power ≤ 7) (hl : lodivOk lodiv = true) :
    frend0_new_val cur_val pa_power lodiv < 256 := by
  have hpn : pa_power.toNat &&& 7 < 8 := Nat.lt_of_le_of_lt Nat.and_le_right (by omega)
  have hx1 : (0xFF ^^^ 0b111 : Nat) = 248 := by decide
  have hx2 : (0xFF ^^^ (0b11 <<< 4) : Nat) = 207 := by decide
  cases lodiv with
  | none =>
      simp only [frend0_new_val, hx1]
      exact and248_or_lt cur_val hc _ hpn
  | some l =>
      simp only [lodivOk, decide_eq_true_eq] at hl
      have hln : l.toNat < 4 := by omega
      simp only [frend0_new_val, hx1, hx2]
      exact and248_or_lt _ (and207_or_shift_lt cur_val hc l.toNat hln) _ hpn

lemma and7_small : ∀ p < 8, p &&& 7 = p := by decide

lemma frend0_new_val_and7 (cur_val : Nat) (pa_power : Int) (lodiv : Option Int)
    (hc : cur_val < 256) (hp : 0 ≤ pa_power ∧ pa_power ≤ 7) (hl : lodivOk lodiv = true) :
    frend0_new_val cur_val pa_power lodiv &&& 7 = pa_power.toNat := by
  have hpn : pa_power.toNat < 8 := by omega
  have h7 : pa_power.toNat &&& 7 = pa_power.toNat := and7_small _ hpn
  have hx1 : (0xFF ^^^ 0b111 : Nat) = 248 := by decide
  have hx2 : (0xFF ^^^ (0b11 <<< 4) : Nat) = 207 := by decide
  have h7lt : pa_power.toNat &&& 7 < 8 := by omega
  cases lodiv with
  | none =>
      simp only [frend0_new_val, hx1]
      rw [and248_or_and7 cur_val hc _ h7lt, h7]
  | some l =>
      simp only [lodivOk, decide_eq_true_eq] at hl
      have hln : l.toNat < 4 := by omega
      have hl3 : l.toNat &&& 3 = l.toNat := by
        have : ∀ x < 4, x &&& 3 = x := by decide
        exact this _ hln
      simp only [frend0_new_val, hx1, hx2]
      have hv1 : ((cur_val &&& 207) ||| ((l.toNat &&& 3) <<< 4)) < 256 :=
        and207_or_shift_lt cur_val hc l.toNat hln
      rw [and248_or_and7 _ hv1 _ h7lt, h7]

lemma set_frend0_eq (c : Nat) (p : Int) (lod : Option Int)
    (hp : 0 ≤ p ∧ p ≤ 7) (hl : lodivOk lod = true) :
    set_frend0 (some c) p lod =
      Except.ok (if frend0_new_val c p lod ≠ c
                 then [RegWrite.frend0 (frend0_new_val c p lod)] else []) := by
  cases lod with
  | none =>
      simp only [set_frend0, frend0_new_val, pure_bind]
      rw [if_pos hp]
      split <;> rfl
  | some l =>
      simp only [lodivOk, decide_eq_true_eq] at hl
      simp only [set_frend0, frend0_new_val]
      rw [if_pos hl]
      simp only [pure_bind]
      rw [if_pos hp]
      split <;> rfl

lemma applyWrites_nil (st : RegState) : applyWrites st [] = st := rfl

lemma applyWrites_cons (st : RegState) (w : RegWrite) (ws : List RegWrite) :
    applyWrites st (w :: ws) = applyWrites (applyWrite st w) ws := rfl

lemma applyWrites_append (st : RegState) (ws1 ws2 : List RegWrite) :
    applyWrites st (ws1 ++ ws2) = applyWrites (applyWrites st ws1) ws2 := by
  simp [applyWrites, List.foldl_append]

lemma set_frend0_writes_spec (c : Nat) (p : Int) (lod : Option Int)
    (hp : 0 ≤ p ∧ p ≤ 7) (hl : lodivOk lod = true) :
    ∃ fw, set_frend0 (some c) p lod = Except.ok fw ∧
      (∀ w ∈ fw, w.isPatableWrite = false) ∧
      ∀ st : RegState, st.frend0 = c →
        (applyWrites st fw).patable = st.patable ∧
        (applyWrites st fw).frend0 = frend0_new_val c p lod := by
  refine ⟨_, set_frend0_eq c p lod hp hl, ?_, ?_⟩ <;>
    by_cases h : frend0_new_val c p lod ≠ c
  · intro w hw
    rw [if_pos h] at hw
    simp at hw
    subst hw
    rfl
  · intro w hw
    rw [if_neg h] at hw
    simp at hw
  · intro st hst
    rw [if_pos h]
    exact ⟨rfl, rfl⟩
  · intro st hst
    rw [if_neg h]
    push_neg at h
    exact ⟨rfl, by rw [applyWrites_nil, hst, h]⟩

lemma applyWrites_patable_map (v : Nat) (idxs : List Nat) (h8 : ∀ i ∈ idxs, i < 8)
    (st : RegState) :
    (applyWrites st (idxs.map (fun i => RegWrite.patable i v))).frend0 = st.frend0 ∧
    ∀ j : Fin 8, (applyWrites st (idxs.map (fun i => RegWrite.patable i v))).patable j =
      if j.val ∈ idxs then v else st.patable j := by
  induction idxs generalizing st with
  | nil =>
      rw [List.map_nil, applyWrites_nil]
      exact ⟨rfl, fun j => by simp⟩
  | cons i rest ih =>
      have hi : i < 8 := h8 i (by simp)
      have hrest : ∀ x ∈ rest, x < 8 := fun x hx => h8 x (by simp [hx])
      simp only [List.map_cons, applyWrites_cons]
      have happ : applyWrite st (RegWrite.patable i v) =
          { st with patable := Function.update st.patable ⟨i, hi⟩ v } := by
        simp [applyWrite, hi]
      rw [happ]
      obtain ⟨ih1, ih2⟩ := ih hrest { st with patable := Function.update st.patable ⟨i, hi⟩ v }
      refine ⟨ih1, fun j => ?_⟩
      rw [ih2 j]
      by_cases hj : j.val ∈ rest
      · simp [hj]
      · by_cases hji : j.val = i
        · have hj' : j = ⟨i, hi⟩ := Fin.ext hji
          subst hj'
          simp [hj, Function.update_same]
        · have hne : j ≠ ⟨i, hi⟩ := fun hcon => hji (by rw [hcon])
          simp [hj, hji, Function.update_noteq hne]

lemma mapM_write_patable (v : Nat) (idxs : List Nat) (h8 : ∀ i ∈ idxs, i < 8) :
    idxs.mapM (fun i => write_patable_index i v) =
      Except.ok (idxs.map (fun i => RegWrite.patable i (v &&& 0xFF))) := by
  induction idxs with
  | nil => rfl
  | cons i rest ih =>
      have hi : i < 8 := h8 i (by simp)
      have hrest : ∀ x ∈ rest, x < 8 := fun x hx => h8 x (by simp [hx])
      rw [List.mapM_cons, ih hrest]
      simp only [write_patable_index, if_neg (by omega : ¬ i > 7)]
      rfl

instance {ε α : Type} [DecidableEq ε] [DecidableEq α] : DecidableEq (Except ε α) := fun x y =>
  match x, y with
  | .ok a, .ok b => decidable_of_iff (a = b) (by simp)
  | .error a, .error b => decidable_of_iff (a = b) (by simp)
  | .ok _, .error _ => Decidable.isFalse (fun hc => Except.noConfusion hc)
  | .error _, .ok _ => Decidable.isFalse (fun hc => Except.noConfusion hc)

lemma except_ok_bind {ε α β : Type} (a : α) (f : α → Except ε β) :
    (Except.ok a >>= f : Except ε β) = f a := rfl

lemma and255_small : ∀ x < 256, x &&& 255 = x := by decide

lemma and255_and255 (x : Nat) : (x &&& 255) &&& 255 = x &&& 255 := by
  rw [Nat.and_assoc]
  rfl

lemma lookup_code_lt (band : Nat) (dbm : Int) (code : Nat)
    (h : lookup_power_code band dbm = some code) : code < 256 := by
  have hall : ∀ p ∈ POWER_TABLE, ∀ q ∈ p.2, q.2 < 256 := by decide
  unfold lookup_power_code at h
  cases hfind : POWER_TABLE.find? (fun p => p.1 == band) with
  | none => simp [hfind] at h
  | some p =>
      simp only [hfind] at h
      have hp : p ∈ POWER_TABLE := List.mem_of_find?_eq_some hfind
      cases hfind2 : p.2.find? (fun q => q.1 == dbm) with
      | none => simp [hfind2] at h
      | some q =>
          simp only [hfind2, Option.map_some', Option.some.injEq] at h
          have hq : q ∈ p.2 := List.mem_of_find?_eq_some hfind2
          rw [← h]
          exact hall p hp q hq

lemma applyWrite_patable_lt (st : RegState) (i : Nat) (v : Nat) (h : i < 8) :
    applyWrite st (RegWrite.patable i v) =
      { st with patable := Function.update st.patable ⟨i, h⟩ v } := by
  simp [applyWrite, h]

lemma smart_regs_writes_spec (c : Nat) (modulation : String) (code : Nat)
    (lod : Option Int) (hc : c < 256) (hl : lodivOk lod = true) :
    ∃ ws, smart_regs_writes (some c) modulation code lod = Except.ok ws ∧
      ∀ st : RegState, st.frend0 = c →
        ((applyWrites st ws).frend0 &&& 7 = (if is_ask modulation then 1 else 0)) ∧
        (if is_ask modulation then
          (∀ j : Fin 8, j.val = 0 → (applyWrites st ws).patable j = 0) ∧
          (∀ j : Fin 8, j.val = 1 → (applyWrites st ws).patable j = code &&& 0xFF) ∧
          (∀ j : Fin 8, 2 ≤ j.val → (applyWrites st ws).patable j = st.patable j)
        else
          (∀ j : Fin 8, j.val = 0 → (applyWrites st ws).patable j = code &&& 0xFF) ∧
          (∀ j : Fin 8, 1 ≤ j.val → (applyWrites st ws).patable j = st.patable j)) := by
  by_cases hask : is_ask modulation
  · obtain ⟨fw, hfw, _, hfwspec⟩ :=
      set_frend0_writes_spec c 1 lod (by norm_num) hl
    refine ⟨fw ++ [RegWrite.patable 0 0, RegWrite.patable 1 (code &&& 0xFF)], ?_, ?_⟩
    · simp only [smart_regs_writes, hask, if_true, hfw, except_ok_bind,
        write_patable_index, if_neg (by omega : ¬ (0 : Nat) > 7),
        if_neg (by omega : ¬ (1 : Nat) > 7), and255_and255]
      rfl
    · intro st hst
      obtain ⟨hpat, hfr⟩ := hfwspec st hst
      rw [applyWrites_append, applyWrites_cons, applyWrite_patable_lt _ 0 0 (by omega),
        applyWrites_cons, applyWrite_patable_lt _ 1 (code &&& 0xFF) (by omega),
        applyWrites_nil]
      dsimp only
      simp only [hask, if_true]
      refine ⟨?_, fun j hj => ?_, fun j hj => ?_, fun j hj => ?_⟩
      · rw [hfr]
        have := frend0_new_val_and7 c 1 lod hc (by norm_num) hl
        simpa using this
      · have hj1 : j ≠ (⟨1, by omega⟩ : Fin 8) := Fin.ne_of_val_ne (show j.val ≠ 1 by omega)
        have hj0 : j = (⟨0, by omega⟩ : Fin 8) := Fin.ext (by simpa using hj)
        rw [Function.update_noteq hj1, hj0, Function.update_same]
      · have hj1 : j = (⟨1, by omega⟩ : Fin 8) := Fin.ext (by simpa using hj)
        rw [hj1, Function.update_same]
      · have hj1 : j ≠ (⟨1, by omega⟩ : Fin 8) := Fin.ne_of_val_ne (show j.val ≠ 1 by omega)
        have hj0 : j ≠ (⟨0, by omega⟩ : Fin 8) := Fin.ne_of_val_ne (show j.val ≠ 0 by omega)
        rw [Function.update_noteq hj1, Function.update_noteq hj0, hpat]
  · obtain ⟨fw, hfw, _, hfwspec⟩ :=
      set_frend0_writes_spec c 0 lod (by norm_num) hl
    refine ⟨fw ++ [RegWrite.patable 0 (code &&& 0xFF)], ?_, ?_⟩
    · simp only [smart_regs_writes, hask, if_false, hfw, except_ok_bind,
        write_patable_index, if_neg (by omega : ¬ (0 : Nat) > 7), and255_and255]
      rfl
    · intro st hst
      obtain ⟨hpat, hfr⟩ := hfwspec st hst
      rw [applyWrites_append, applyWrites_cons,
        applyWrite_patable_lt _ 0 (code &&& 0xFF) (by omega), applyWrites_nil]
      dsimp only
      simp only [hask, if_false]
      refine ⟨?_, fun j hj => ?_, fun j hj => ?_⟩
      · rw [hfr]
        have := frend0_new_val_and7 c 0 lod hc (by norm_num) hl
        simpa using this
      · have hj0 : j = (⟨0, by omega⟩ : Fin 8) := Fin.ext (by simpa using hj)
        rw [hj0, Function.update_same]
      · have hj0 : j ≠ (⟨0, by omega⟩ : Fin 8) := Fin.ne_of_val_ne (show j.val ≠ 0 by omega)
        rw [Function.update_noteq hj0, hpat]

/-! ## Claim theorems -/

/-- C1 counterexample: with front-end read-back `0b11001000`, `pa_power=5`
and `lodiv=3`, `_set_frend0` does NOT write `0b10111101` — the read-back's
bit 6 is set, so a written byte with bit 6 clear would not preserve
bits 7:6 as the claim itself requires. -/
theorem claim_C1_counterexample :
    set_frend0 (some 0b11001000) 5 (some 3) ≠
      Except.ok [RegWrite.frend0 0b10111101] := by decide

/-- C1 amended: with front-end read-back `0b11001000`, `pa_power=5` and
`lodiv=3`, the computed front-end byte that gets written is `0b11111101`:
bits [2:0] hold `pa_power`, bits [5:4] hold `lodiv`, and bits 7:6 and bit 3
of the read-back are preserved unchanged. -/
theorem claim_C1_amended :
    set_frend0 (some 0b11001000) 5 (some 3) =
      Except.ok [RegWrite.frend0 0b11111101] ∧
    0b11111101 &&& 0b111 = 5 ∧
    (0b11111101 >>> 4) &&& 0b11 = 3 ∧
    0b11111101 >>> 6 = 0b11001000 >>> 6 ∧
    (0b11111101 >>> 3) &&& 1 = (0b11001000 >>> 3) &&& 1 := by decide

/-- C2: on a smart-mode lookup hit with register access available, the
register path is taken with no warning; for the ASK/OOK family the front
end ends with PA_POWER=1, PATABLE index 0 holding 0x00 and index 1 the
looked-up code; for any other modulation PA_POWER=0 and PATABLE index 0
holds the code; and band 433 at 0 dBm looks up code 0x60. -/
theorem claim_C2 (caps : DeviceCaps) (st : RegState) (freq_hz : Int)
    (modulation : String) (t_dbm? : Option Int) (band_override : PyVal)
    (lodiv? : Option Int) (code : Nat)
    (hpeek : caps.peek = true) (hpoke : caps.poke = true)
    (hc : st.frend0 < 256) (hl : lodivOk lodiv? = true)
    (hhit : lookup_power_code (select_band freq_hz band_override) (t_dbm?.getD 0) =
      some code) :
    lookup_power_code 433 0 = some 0x60 ∧
    ∃ ws,
      apply_smart_power caps (some st.frend0) freq_hz modulation t_dbm? band_override
        lodiv? = (SmartAction.regs ws, false) ∧
      ((applyWrites st ws).frend0 &&& 7 = (if is_ask modulation then 1 else 0)) ∧
      (if is_ask modulation then
        (∀ j : Fin 8, j.val = 0 → (applyWrites st ws).patable j = 0) ∧
        (∀ j : Fin 8, j.val = 1 → (applyWrites st ws).patable j = code)
      else
        (∀ j : Fin 8, j.val = 0 → (applyWrites st ws).patable j = code)) := by
  obtain ⟨ws, hws, hspec⟩ :=
    smart_regs_writes_spec st.frend0 modulation code lodiv? hc hl
  have hcode : code &&& 0xFF = code :=
    and255_small code (lookup_code_lt _ _ _ hhit)
  refine ⟨by decide, ws, ?_, ?_⟩
  · simp only [apply_smart_power, hhit, hpeek, hpoke, Bool.and_self, if_true, hws,
      Except.toOption]
  · obtain ⟨hfr, hpt⟩ := hspec st rfl
    refine ⟨hfr, ?_⟩
    by_cases hask : is_ask modulation
    · rw [if_pos hask]
      rw [if_pos hask] at hpt
      exact ⟨hpt.1, fun j hj => by rw [hpt.2.1 j hj, hcode]⟩
    · rw [if_neg hask]
      rw [if_neg hask] at hpt
      exact fun j hj => by rw [hpt.1 j hj, hcode]

/-- C2 witness: band 433 at 0 dBm with ASK_OOK modulation and full register
access programs PA_POWER=1, PATABLE[0]=0x00 and PATABLE[1]=0x60. -/
theorem claim_C2_witness :
    lookup_power_code 433 0 = some 0x60 ∧
    ∃ ws,
      apply_smart_power ⟨true, true, true, true, true, true, true⟩ (some 0xC8) 433920000
        "ASK_OOK" (some 0) (PyVal.str "auto") none = (SmartAction.regs ws, false) ∧
      ((applyWrites ⟨0xC8, fun _ => 0x55⟩ ws).frend0 &&& 7 =
        (if is_ask "ASK_OOK" then 1 else 0)) ∧
      (if is_ask "ASK_OOK" then
        (∀ j : Fin 8, j.val = 0 →
          (applyWrites ⟨0xC8, fun _ => 0x55⟩ ws).patable j = 0) ∧
        (∀ j : Fin 8, j.val = 1 →
          (applyWrites ⟨0xC8, fun _ => 0x55⟩ ws).patable j = 0x60)
      else
        (∀ j : Fin 8, j.val = 0 →
          (applyWrites ⟨0xC8, fun _ => 0x55⟩ ws).patable j = 0x60)) :=
  claim_C2 ⟨true, true, true, true, true, true, true⟩ ⟨0xC8, fun _ => 0x55⟩ 433920000
    "ASK_OOK" (some 0) (PyVal.str "auto") none 0x60 rfl rfl (by norm_num) rfl (by decide)

/-- C3: whenever the smart-power band/dBm lookup misses, `_apply_smart_power`
returns normally (it is a total function here — no exception path), calls
the maximum-power capability, and flags the warning. -/
theorem claim_C3 (caps : DeviceCaps) (cur : Option Nat) (freq_hz : Int)
    (modulation : String) (t_dbm? : Option Int) (band_override : PyVal)
    (lodiv? : Option Int)
    (hmax : caps.hasSetMaxPower = true)
    (hmiss : lookup_power_code (select_band freq_hz band_override) (t_dbm?.getD 0) = none) :
    apply_smart_power caps cur freq_hz modulation t_dbm? band_override lodiv? =
      (SmartAction.maxPower, true) := by
  simp only [apply_smart_power, hmiss, hmax, if_true]

/-- C3 witness: band 433 with target 1 dBm has no table entry, so the
resolution degrades to maximum power with a warning. -/
theorem claim_C3_witness :
    apply_smart_power ⟨true, true, true, true, true, true, true⟩ none 433920000 "ASK_OOK"
      (some 1) PyVal.none none = (SmartAction.maxPower, true) :=
  claim_C3 _ _ _ _ _ _ _ rfl (by decide)

/-- C5: manual power mode with a single-value patable: for the ASK/OOK
family, PATABLE index 0 is forced to 0x00 and indices 1..pa_power are
written the on-value; for any other modulation indices 0..pa_power are
written the on-value with no forced-off index; indices above pa_power are
untouched either way. -/
theorem claim_C5 (modulation : String) (st : RegState) (pa? lodiv? : Option Int)
    (v : Nat) (hc : st.frend0 < 256) (hpa : paOk pa? = true) (hl : lodivOk lodiv? = true) :
    ∃ ws, apply_manual_regs modulation (some st.frend0) pa? lodiv? (some [v]) =
        Except.ok (ws, false) ∧
      ((applyWrites st ws).frend0 &&& 7 = (pa?.getD 1).toNat) ∧
      (if is_ask modulation then
        (∀ j : Fin 8, j.val = 0 → (applyWrites st ws).patable j = 0) ∧
        (∀ j : Fin 8, 1 ≤ j.val → j.val ≤ (pa?.getD 1).toNat →
          (applyWrites st ws).patable j = v &&& 0xFF) ∧
        (∀ j : Fin 8, (pa?.getD 1).toNat < j.val →
          (applyWrites st ws).patable j = st.patable j)
      else
        (∀ j : Fin 8, j.val ≤ (pa?.getD 1).toNat →
          (applyWrites st ws).patable j = v &&& 0xFF) ∧
        (∀ j : Fin 8, (pa?.getD 1).toNat < j.val →
          (applyWrites st ws).patable j = st.patable j)) := by
  have hp : 0 ≤ pa?.getD 1 ∧ pa?.getD 1 ≤ 7 := by
    cases pa? with
    | none => norm_num
    | some p => simpa [paOk] using hpa
  obtain ⟨fw, hfw, hfree, hspec⟩ :=
    set_frend0_writes_spec st.frend0 (pa?.getD 1) lodiv? hp hl
  obtain ⟨hpat, hfr⟩ := hspec st rfl
  have hpan : (pa?.getD 1).toNat ≤ 7 := by omega
  by_cases hask : is_ask modulation
  · have h8 : ∀ i ∈ pyrange 1 ((pa?.getD 1).toNat + 1), i < 8 := by
      intro i hi
      simp only [pyrange, List.mem_range'_1] at hi
      omega
    refine ⟨fw ++ [RegWrite.patable 0 0] ++
      (pyrange 1 ((pa?.getD 1).toNat + 1)).map
        (fun i => RegWrite.patable i ((v &&& 0xFF) &&& 0xFF)), ?_, ?_⟩
    · have hw0 : write_patable_index 0 0x00 = Except.ok (RegWrite.patable 0 0) := rfl
      simp only [apply_manual_regs, hfw, except_ok_bind, hask, if_true, hw0, pure_bind,
        mapM_write_patable (v &&& 0xFF) _ h8, except_ok_bind]
      rfl
    · rw [applyWrites_append, applyWrites_append, applyWrites_cons,
        applyWrite_patable_lt _ 0 0 (by omega), applyWrites_nil]
      obtain ⟨hm1, hm2⟩ := applyWrites_patable_map ((v &&& 0xFF) &&& 0xFF) _ h8
        { applyWrites st fw with
          patable := Function.update (applyWrites st fw).patable ⟨0, by omega⟩ 0 }
      rw [if_pos hask]
      refine ⟨?_, fun j hj => ?_, fun j hj1 hj2 => ?_, fun j hj => ?_⟩
      · rw [hm1]
        dsimp only
        rw [hfr]
        exact frend0_new_val_and7 _ _ _ hc hp hl
      · rw [hm2 j]
        rw [if_neg (by simp only [pyrange, List.mem_range'_1]; omega)]
        dsimp only
        have hj0 : j = (⟨0, by omega⟩ : Fin 8) := Fin.ext (by simpa using hj)
        rw [hj0, Function.update_same]
      · rw [hm2 j, if_pos (by simp only [pyrange, List.mem_range'_1]; omega),
          and255_and255]
      · rw [hm2 j, if_neg (by simp only [pyrange, List.mem_range'_1]; omega)]
        dsimp only
        have hj0 : j ≠ (⟨0, by omega⟩ : Fin 8) := Fin.ne_of_val_ne (show j.val ≠ 0 by omega)
        rw [Function.update_noteq hj0, hpat]
  · have h8 : ∀ i ∈ pyrange 0 ((pa?.getD 1).toNat + 1), i < 8 := by
      intro i hi
      simp only [pyrange, List.mem_range'_1] at hi
      omega
    refine ⟨fw ++ [] ++
      (pyrange 0 ((pa?.getD 1).toNat + 1)).map
        (fun i => RegWrite.patable i ((v &&& 0xFF) &&& 0xFF)), ?_, ?_⟩
    · simp only [apply_manual_regs, hfw, except_ok_bind, hask, Bool.false_eq_true, if_false,
        pure_bind, mapM_write_patable (v &&& 0xFF) _ h8, except_ok_bind]
      rfl
    · rw [applyWrites_append, applyWrites_append, applyWrites_nil]
      obtain ⟨hm1, hm2⟩ := applyWrites_patable_map ((v &&& 0xFF) &&& 0xFF) _ h8
        (applyWrites st fw)
      rw [if_neg hask]
      refine ⟨?_, fun j hj => ?_, fun j hj => ?_⟩
      · rw [hm1, hfr]
        exact frend0_new_val_and7 _ _ _ hc hp hl
      · rw [hm2 j, if_pos (by simp only [pyrange, List.mem_range'_1]; omega),
          and255_and255]
      · rw [hm2 j, if_neg (by simp only [pyrange, List.mem_range'_1]; omega), hpat]

/-- C5 witness: the claim's example — ASK/OOK, single value 0x60,
pa_power=3 — forces index 0 to 0x00 and writes indices 1..3 with 0x60,
leaving indices 4..7 untouched. -/
theorem claim_C5_witness :
    ∃ ws, apply_manual_regs "ASK_OOK" (some 0) (some 3) none (some [0x60]) =
        Except.ok (ws, false) ∧
      ((applyWrites ⟨0, fun _ => 9⟩ ws).frend0 &&& 7 = 3) ∧
      (if is_ask "ASK_OOK" then
        (∀ j : Fin 8, j.val = 0 → (applyWrites ⟨0, fun _ => 9⟩ ws).patable j = 0) ∧
        (∀ j : Fin 8, 1 ≤ j.val → j.val ≤ 3 →
          (applyWrites ⟨0, fun _ => 9⟩ ws).patable j = 0x60 &&& 0xFF) ∧
        (∀ j : Fin 8, 3 < j.val →
          (applyWrites ⟨0, fun _ => 9⟩ ws).patable j = (⟨0, fun _ => 9⟩ : RegState).patable j)
      else
        (∀ j : Fin 8, j.val ≤ 3 →
          (applyWrites ⟨0, fun _ => 9⟩ ws).patable j = 0x60 &&& 0xFF) ∧
        (∀ j : Fin 8, 3 < j.val →
          (applyWrites ⟨0, fun _ => 9⟩ ws).patable j =
            (⟨0, fun _ => 9⟩ : RegState).patable j)) :=
  claim_C5 "ASK_OOK" ⟨0, fun _ => 9⟩ (some 3) none 0x60 (by norm_num) rfl rfl

/-- C10: manual power mode with the patable field absent or unparseable:
no PATABLE entry is written (every write is a FREND0 write and all eight
power-table bytes are unchanged), the warning flag is set, and the
front-end byte is still programmed — with pa_power defaulting to 1 when
the pa_power field is also absent. -/
theorem claim_C10 (modulation : String) (st : RegState) (pa? lodiv? : Option Int)
    (hc : st.frend0 < 256) (hpa : paOk pa? = true) (hl : lodivOk lodiv? = true) :
    ∃ ws, apply_manual_regs modulation (some st.frend0) pa? lodiv? none =
        Except.ok (ws, true) ∧
      (∀ w ∈ ws, w.isPatableWrite = false) ∧
      (applyWrites st ws).patable = st.patable ∧
      (applyWrites st ws).frend0 &&& 7 = (pa?.getD 1).toNat ∧
      (pa? = none → (applyWrites st ws).frend0 &&& 7 = 1) := by
  have hp : 0 ≤ pa?.getD 1 ∧ pa?.getD 1 ≤ 7 := by
    cases pa? with
    | none => norm_num
    | some p => simpa [paOk] using hpa
  obtain ⟨fw, hfw, hfree, hspec⟩ :=
    set_frend0_writes_spec st.frend0 (pa?.getD 1) lodiv? hp hl
  obtain ⟨hpat, hfr⟩ := hspec st rfl
  refine ⟨fw, ?_, hfree, hpat, ?_, ?_⟩
  · simp only [apply_manual_regs, hfw, except_ok_bind]
    rfl
  · rw [hfr]
    exact frend0_new_val_and7 _ _ _ hc hp hl
  · intro hnone
    subst hnone
    rw [hfr]
    simpa using frend0_new_val_and7 st.frend0 ((none : Option Int).getD 1) lodiv? hc hp hl

/-- C10 witness: manual mode with `patable` absent and `pa_power` absent —
FREND0 is programmed with PA_POWER=1, the warning is flagged, and all
eight PATABLE bytes stay as they were. -/
theorem claim_C10_witness :
    ∃ ws, apply_manual_regs "2FSK" (some 0xC8) none none none = Except.ok (ws, true) ∧
      (∀ w ∈ ws, w.isPatableWrite = false) ∧
      (applyWrites ⟨0xC8, fun _ => 7⟩ ws).patable = (⟨0xC8, fun _ => 7⟩ : RegState).patable ∧
      (applyWrites ⟨0xC8, fun _ => 7⟩ ws).frend0 &&& 7 = ((none : Option Int).getD 1).toNat ∧
      ((none : Option Int) = none →
        (applyWrites ⟨0xC8, fun _ => 7⟩ ws).frend0 &&& 7 = 1) :=
  claim_C10 "2FSK" ⟨0xC8, fun _ => 7⟩ none none (by norm_num) rfl rfl

/-- C7 counterexample: with two raw traces, index `-1` selects the LAST
trace (Python negative indexing), not trace 0, and with one trace index
`-2` raises `IndexError` — both contradict "a bad index always yields
trace 0 and never errors". -/
theorem claim_C7_counterexample :
    select_raw_trace [[1], [2]] (-1) = some [2] ∧
    select_raw_trace [[1], [2]] (-1) ≠ some [1] ∧
    select_raw_trace [[1]] (-2) = none := by decide

/-- C7 amended: only an index at least the number of traces falls back to
trace 0; a non-negative in-range index selects that trace, a negative index
within `-count..-1` selects from the end (Python semantics), and an index
below `-count` raises `IndexError`. -/
theorem claim_C7_amended (l0 : List Int) (rest : List (List Int)) (i : Int) :
    (i ≥ (((l0 :: rest).length : Int)) →
      select_raw_trace (l0 :: rest) i = some l0) ∧
    (0 ≤ i → i < (((l0 :: rest).length : Int)) →
      select_raw_trace (l0 :: rest) i = (l0 :: rest).get? i.toNat) ∧
    (-(((l0 :: rest).length : Int)) ≤ i → i < 0 →
      select_raw_trace (l0 :: rest) i =
        (l0 :: rest).get? ((l0 :: rest).length - i.natAbs)) ∧
    (i < -(((l0 :: rest).length : Int)) → select_raw_trace (l0 :: rest) i = none) := by
  refine ⟨fun h => ?_, fun h0 hlt => ?_, fun hge hneg => ?_, fun hlt => ?_⟩
  · simp only [select_raw_trace]
    rw [if_pos h]
    simp only [pythonGet]
    rw [if_pos (le_refl (0 : Int))]
    rfl
  · have hne : ¬ i ≥ (((l0 :: rest).length : Int)) := by omega
    simp only [select_raw_trace]
    rw [if_neg hne]
    simp only [pythonGet]
    rw [if_pos h0]
  · have hne : ¬ i ≥ (((l0 :: rest).length : Int)) := by
      have : (0 : Int) ≤ ((l0 :: rest).length : Int) := by positivity
      omega
    have habs : i.natAbs ≤ (l0 :: rest).length := by omega
    simp only [select_raw_trace]
    rw [if_neg hne]
    simp only [pythonGet]
    rw [if_neg (by omega : ¬ (0 : Int) ≤ i), if_pos habs]
  · have hne : ¬ i ≥ (((l0 :: rest).length : Int)) := by
      have : (0 : Int) ≤ ((l0 :: rest).length : Int) := by positivity
      omega
    have habs : ¬ i.natAbs ≤ (l0 :: rest).length := by omega
    simp only [select_raw_trace]
    rw [if_neg hne]
    simp only [pythonGet]
    rw [if_neg (by omega : ¬ (0 : Int) ≤ i), if_neg habs]

/-- C7 witness: on three traces, index 7 falls back to trace 0, index −3
selects from the end (here also trace 0), and index −4 errors. -/
theorem claim_C7_witness :
    select_raw_trace [[5], [6], [7]] 7 = some [5] ∧
    select_raw_trace [[5], [6], [7]] (-3) = some [5] ∧
    select_raw_trace [[5], [6], [7]] (-4) = none := by
  refine ⟨(claim_C7_amended [5] [[6], [7]] 7).1 (by decide), ?_,
    (claim_C7_amended [5] [[6], [7]] (-4)).2.2.2 (by decide)⟩
  have h := (claim_C7_amended [5] [[6], [7]] (-3)).2.2.1 (by decide) (by decide)
  exact h.trans (by decide)

lemma packChunks_length (msb_first : Bool) (bits : List Nat) :
    (packChunks msb_first bits).length = (bits.length + 7) / 8 := by
  induction bits using packChunks.induct msb_first with
  | case1 => simp [packChunks]
  | case2 bit rest ih =>
      rw [packChunks]
      simp only [List.length_cons, ih, List.length_drop]
      omega

/-- C8: for every chip sequence and either bit order, `_pack_bits` returns
exactly `ceil(len(chips)/8)` bytes, and its output equals packing the chip
sequence extended by appended 0-valued padding chips up to a multiple of 8,
so every padding bit in the output is 0. -/
theorem claim_C8 (bits : List Nat) (msb_first : Bool) :
    (pack_bits bits msb_first).length = (bits.length + 7) / 8 ∧
    pack_bits bits msb_first =
      packChunks msb_first (bits ++ List.replicate ((8 - bits.length % 8) % 8) 0) := by
  constructor
  · simp only [pack_bits]
    split
    · rw [packChunks_length]
      simp only [List.length_append, List.length_replicate]
      omega
    · rw [packChunks_length]
  · simp only [pack_bits]
    split
    · have hmod : (8 - bits.length % 8) % 8 = 8 - bits.length % 8 := by omega
      rw [hmod]
    · have hmod : (8 - bits.length % 8) % 8 = 0 := by omega
      rw [hmod]
      simp

/-- C4 counterexample: a descriptor with the unrecognized power mode
string "warp" parses successfully — `parse_rfcat_json` never reads
`tx_power_mode`, so no `InvalidPowerMode` failure occurs at parse time and
the returned request carries no power-mode field at all. -/
theorem claim_C4_counterexample :
    parse_rfcat_json
      { Descriptor.empty with
          frequency := some 433920000
          payload := some [1]
          tx_power_mode := some "warp" } =
      Except.ok
        { freq := 433920000
          payload := [1]
          repeat_cnt := 20
          drate := 3333
          modulation := "ASK_OOK"
          manchester := false
          deviation := none
          syncmode := 0
          preamble := 0
          max_power := true } := by
  rfl

/-- C4 amended: the descriptor parser ignores `tx_power_mode` entirely (its
result is independent of that field and an unrecognized value is not an
error), and the power-mode mapping lives in `Radio._apply_power_settings`
over its `tx_power_mode` argument: "max"/"maximum"/"full" → maximum power,
"default"/"auto"/"keep"/"none" → no action, "smart"/"preset"/"table" and
an absent or empty mode → the smart resolution, "manual"/"register"/
"frend0" → the manual register programming, and every other mode string —
any string that is non-empty and normalizes (strip + lower) to none of
those — raises `ValueError` there. -/
theorem claim_C4_amended :
    (∀ (d : Descriptor) (m m' : Option String),
      parse_rfcat_json { d with tx_power_mode := m } =
        parse_rfcat_json { d with tx_power_mode := m' }) ∧
    (∀ (caps : DeviceCaps) (cur : Option Nat) (freq_hz : Int) (modulation : String)
       (t? : Option Int) (ov : PyVal) (pa? lodiv? : Option Int) (pt? : Option (List Nat)),
      (∀ m ∈ ["max", "maximum", "full"],
        apply_power_settings caps cur freq_hz modulation (some m) t? ov pa? lodiv? pt? =
          Except.ok (.maxPower caps.hasSetMaxPower)) ∧
      (∀ m ∈ ["default", "auto", "keep", "none"],
        apply_power_settings caps cur freq_hz modulation (some m) t? ov pa? lodiv? pt? =
          Except.ok .keep) ∧
      (∀ m ∈ [some "smart", some "preset", some "table", some "", none],
        apply_power_settings caps cur freq_hz modulation m t? ov pa? lodiv? pt? =
          Except.ok (.smart (apply_smart_power caps cur freq_hz modulation t? ov lodiv?).1
            (apply_smart_power caps cur freq_hz modulation t? ov lodiv?).2)) ∧
      (∀ m ∈ ["manual", "register", "frend0"],
        apply_power_settings caps cur freq_hz modulation (some m) t? ov pa? lodiv? pt? =
          (apply_manual_regs modulation cur pa? lodiv? pt?).map
            (fun r => PowerOutcome.manual r.1 r.2))) ∧
    (∀ (caps : DeviceCaps) (cur : Option Nat) (freq_hz : Int) (modulation : String)
       (t? : Option Int) (ov : PyVal) (pa? lodiv? : Option Int) (pt? : Option (List Nat))
       (mode : String),
      mode ≠ "" →
      pyLower (pyStrip mode) ∉
        ["max", "maximum", "full", "default", "auto", "keep", "none",
         "smart", "preset", "table", "manual", "register", "frend0"] →
      apply_power_settings caps cur freq_hz modulation (some mode) t? ov pa? lodiv? pt? =
        Except.error (.valueErr "Unknown tx_power_mode")) := by
  refine ⟨fun d m m' => rfl,
    fun caps cur freq_hz modulation t? ov pa? lodiv? pt? =>
      ⟨fun m hm => ?_, fun m hm => ?_, fun m hm => ?_, fun m hm => ?_⟩,
    fun caps cur freq_hz modulation t? ov pa? lodiv? pt? mode hne hnotin => ?_⟩
  · fin_cases hm <;> rfl
  · fin_cases hm <;> rfl
  · fin_cases hm <;> rfl
  · fin_cases hm <;> rfl
  · simp only [List.mem_cons, List.not_mem_nil, or_false, not_or] at hnotin
    obtain ⟨h1, h2, h3, h4, h5, h6, h7, h8, h9, h10, h11, h12, h13⟩ := hnotin
    simp [apply_power_settings, hne, h1, h2, h3, h4, h5, h6, h7, h8, h9, h10, h11, h12, h13]

/-- C4 witness: the mode string "bogus" is non-empty, normalizes to none
of the recognized modes, and makes `_apply_power_settings` raise the
unknown-mode `ValueError`. -/
theorem claim_C4_witness :
    apply_power_settings ⟨true, true, true, true, true, true, true⟩ (some 0) 433920000
      "ASK_OOK" (some "bogus") none PyVal.none none none none =
      Except.error (RfErr.valueErr "Unknown tx_power_mode") :=
  claim_C4_amended.2.2 ⟨true, true, true, true, true, true, true⟩ (some 0) 433920000
    "ASK_OOK" none PyVal.none none none none "bogus" (by decide) (by decide)

lemma runSteps_congr (fails fails' : DevCall → Bool) :
    ∀ steps : List TxStep,
      (∀ c, TxStep.call c ∈ steps → fails c = fails' c) →
      runSteps fails steps = runSteps fails' steps := by
  intro steps
  induction steps with
  | nil => intro _; rfl
  | cons s rest ih =>
      intro h
      cases s with
      | check ok e =>
          simp only [runSteps]
          rw [ih (fun c hc => h c (by simp [hc]))]
      | call c =>
          simp only [runSteps]
          rw [h c (by simp), ih (fun c' hc' => h c' (by simp [hc']))]

lemma bodySteps_no_idle (caps : DeviceCaps) (cur : Option Nat) (a : TxArgs) :
    TxStep.call DevCall.setModeIDLE ∉ transmitBodySteps caps cur a := by
  intro hmem
  by_cases hfsk : (pyUpper a.modulation = "2FSK" ∨ pyUpper a.modulation = "FSK") <;>
    rcases hdev : a.deviation with _ | dv <;>
      cases hman : caps.hasSetMdmManchester <;>
        simp [transmitBodySteps, hdev, hman, hfsk] at hmem

/-- C9: on every exit path of `Radio.transmit`, successful or failing, the
`setModeIDLE` call is the last device interaction, and a failure of the
idle call itself is swallowed: the transmit outcome is unchanged whichever
way the device oracle treats `setModeIDLE`. -/
theorem claim_C9 (caps : DeviceCaps) (cur : Option Nat) (a : TxArgs)
    (fails fails' : DevCall → Bool)
    (hagree : ∀ c, c ≠ DevCall.setModeIDLE → fails c = fails' c) :
    (transmit caps cur a fails).1 ≠ [] ∧
    (transmit caps cur a fails).1.getLast? = some DevCall.setModeIDLE ∧
    (transmit caps cur a fails).2 = (transmit caps cur a fails').2 := by
  have hcong : runSteps fails (transmitBodySteps caps cur a) =
      runSteps fails' (transmitBodySteps caps cur a) := by
    apply runSteps_congr
    intro c hc
    apply hagree
    intro hceq
    subst hceq
    exact bodySteps_no_idle caps cur a hc
  refine ⟨?_, ?_, ?_⟩
  · simp [transmit]
  · simp only [transmit]
    exact List.getLast?_concat _
  · simp only [transmit, hcong]

/-- C9 witness: a concrete transmit against an oracle where only the idle
call fails — the trace still ends in `setModeIDLE` and the outcome equals
the all-succeeding run's. -/
theorem claim_C9_witness :
    (transmit ⟨true, true, true, true, true, true, true⟩ (some 0)
      ⟨433920000, [1, 2], 20, 3333, "ASK_OOK", false, none, 0, 0, true,
        none, none, PyVal.none, none, none, none⟩ (fun _ => false)).1 ≠ [] ∧
    (transmit ⟨true, true, true, true, true, true, true⟩ (some 0)
      ⟨433920000, [1, 2], 20, 3333, "ASK_OOK", false, none, 0, 0, true,
        none, none, PyVal.none, none, none, none⟩
      (fun _ => false)).1.getLast? = some DevCall.setModeIDLE ∧
    (transmit ⟨true, true, true, true, true, true, true⟩ (some 0)
      ⟨433920000, [1, 2], 20, 3333, "ASK_OOK", false, none, 0, 0, true,
        none, none, PyVal.none, none, none, none⟩ (fun _ => false)).2 =
    (transmit ⟨true, true, true, true, true, true, true⟩ (some 0)
      ⟨433920000, [1, 2], 20, 3333, "ASK_OOK", false, none, 0, 0, true,
        none, none, PyVal.none, none, none, none⟩
      (fun c => decide (c = DevCall.setModeIDLE))).2 :=
  claim_C9 ⟨true, true, true, true, true, true, true⟩ (some 0)
    ⟨433920000, [1, 2], 20, 3333, "ASK_OOK", false, none, 0, 0, true,
      none, none, PyVal.none, none, none, none⟩
    (fun _ => false) (fun c => decide (c = DevCall.setModeIDLE))
    (fun c hc => by simp [hc])

/-- C6: with the frequency present, the payload is resolved by trying the
four sources in fixed priority order — byte list, hex string, base64 text,
pulse durations — the duration path forces `modulation = "ASK_OOK"`
regardless of the declared value, and with all four sources absent parsing
fails with the missing-payload error. -/
theorem claim_C6 (d : Descriptor) (f : Int)
    (hf : (d.frequency <|> d.freq <|> d.freq_hz) = some f) :
    (∀ xs, d.payload = some xs →
      ∃ r, parse_rfcat_json d = Except.ok r ∧ r.payload = xs.map pyByte) ∧
    (∀ s, d.payload = none → d.payload_hex = some s →
      ∃ r, parse_rfcat_json d = Except.ok r ∧ r.payload = hex_to_bytes s) ∧
    (∀ s bs, d.payload = none → d.payload_hex = none → d.payload_b64 = some s →
      b64decode s = some bs →
      ∃ r, parse_rfcat_json d = Except.ok r ∧ r.payload = bs) ∧
    (∀ rs, d.payload = none → d.payload_hex = none → d.payload_b64 = none →
      d.raw_durations.or d.raw_durations_us = some rs → rs ≠ [] →
      ∃ r, parse_rfcat_json d = Except.ok r ∧
        r.payload = pack_bits (durations_to_bits rs (d.drate.getD 3333)
          (d.invert_level.getD false) (d.max_gap_us.getD 30000)) (d.msb_first.getD true) ∧
        r.modulation = "ASK_OOK") ∧
    (d.payload = none → d.payload_hex = none → d.payload_b64 = none →
      (∀ rs, d.raw_durations.or d.raw_durations_us = some rs → rs = []) →
      parse_rfcat_json d = Except.error ParseErr.missingPayload) := by
  refine ⟨fun xs hxs => ?_, fun s h1 h2 => ?_, fun s bs h1 h2 h3 h4 => ?_,
    fun rs h1 h2 h3 h4 h5 => ?_, fun h1 h2 h3 h4 => ?_⟩
  · refine
      ⟨{ freq := f,
         payload := xs.map pyByte,
         repeat_cnt := d.repeat_cnt.getD 20,
         drate := d.drate.getD 3333,
         modulation := pyUpper (d.modulation.getD "ASK_OOK"),
         manchester := d.manchester.getD false,
         deviation := d.deviation,
         syncmode := d.syncmode.getD 0,
         preamble := d.preamble.getD 0,
         max_power := d.max_power.getD true },
       ?_, rfl⟩
    simp only [parse_rfcat_json, hf, hxs, pure_bind]
    rfl
  · refine
      ⟨{ freq := f,
         payload := hex_to_bytes s,
         repeat_cnt := d.repeat_cnt.getD 20,
         drate := d.drate.getD 3333,
         modulation := pyUpper (d.modulation.getD "ASK_OOK"),
         manchester := d.manchester.getD false,
         deviation := d.deviation,
         syncmode := d.syncmode.getD 0,
         preamble := d.preamble.getD 0,
         max_power := d.max_power.getD true },
       ?_, rfl⟩
    simp only [parse_rfcat_json, hf, h1, h2, pure_bind]
    rfl
  · refine
      ⟨{ freq := f,
         payload := bs,
         repeat_cnt := d.repeat_cnt.getD 20,
         drate := d.drate.getD 3333,
         modulation := pyUpper (d.modulation.getD "ASK_OOK"),
         manchester := d.manchester.getD false,
         deviation := d.deviation,
         syncmode := d.syncmode.getD 0,
         preamble := d.preamble.getD 0,
         max_power := d.max_power.getD true },
       ?_, rfl⟩
    simp only [parse_rfcat_json, hf, h1, h2, h3, h4, pure_bind]
    rfl
  · refine
      ⟨{ freq := f,
         payload := pack_bits (durations_to_bits rs (d.drate.getD 3333)
           (d.invert_level.getD false) (d.max_gap_us.getD 30000)) (d.msb_first.getD true),
         repeat_cnt := d.repeat_cnt.getD 20,
         drate := d.drate.getD 3333,
         modulation := "ASK_OOK",
         manchester := d.manchester.getD false,
         deviation := d.deviation,
         syncmode := d.syncmode.getD 0,
         preamble := d.preamble.getD 0,
         max_power := d.max_power.getD true },
       ?_, rfl, rfl⟩
    simp only [parse_rfcat_json, hf, h1, h2, h3, h4, pure_bind]
    rw [if_pos h5]
    rfl
  · cases hro : d.raw_durations.or d.raw_durations_us with
    | none =>
        simp only [parse_rfcat_json, hf, h1, h2, h3, hro, pure_bind]
    | some rs =>
        have hrs : rs = [] := h4 rs hro
        subst hrs
        simp only [parse_rfcat_json, hf, h1, h2, h3, hro, pure_bind]
        rw [if_neg (by simp)]

/-- C6 witness: a frequency-only descriptor fails with the missing-payload
error, and a duration-sequence descriptor that declares 2FSK still comes
back with `ASK_OOK` and the packed chip payload. -/
theorem claim_C6_witness :
    parse_rfcat_json { Descriptor.empty with frequency := some 433920000 } =
      Except.error ParseErr.missingPayload ∧
    (∃ r, parse_rfcat_json
        { Descriptor.empty with
            frequency := some 1
            modulation := some "2FSK"
            drate := some 1000
            raw_durations_us :=
              some [1000, -1000, 1000, -1000, 1000, -1000, 1000, -1000] } =
        Except.ok r ∧
      r.payload = pack_bits (durations_to_bits
        [1000, -1000, 1000, -1000, 1000, -1000, 1000, -1000] 1000 false 30000) true ∧
      r.modulation = "ASK_OOK") :=
  ⟨(claim_C6 { Descriptor.empty with frequency := some 433920000 } 433920000
      rfl).2.2.2.2 rfl rfl rfl (fun rs h => by simp [Descriptor.empty, Option.or] at h),
   (claim_C6
      { Descriptor.empty with
          frequency := some 1
          modulation := some "2FSK"
          drate := some 1000
          raw_durations_us :=
            some [1000, -1000, 1000, -1000, 1000, -1000, 1000, -1000] } 1
      rfl).2.2.2.1 [1000, -1000, 1000, -1000, 1000, -1000, 1000, -1000]
      rfl rfl rfl rfl (by decide)⟩

end CatFlap
